import Mathlib

/-!
Verification of the multi-evidence gene-scoring pipeline of
PlantGeneSignatureBuilder (`rank_gene_signatures.py`, `pgsb/domains/parser.py`).

Scores are embedded as rationals (`ℚ`); Python floats are idealised as exact
rational arithmetic.  Python dictionaries keyed by strings are embedded as
association lists (insertion order preserved, as in Python).  A Python
function that can raise an uncaught exception is embedded as an
`Option`-valued function, `none` standing for the raised exception.
-/

namespace PGSB

/-! ## Generic list helpers (kernel-computable stand-ins for numpy / Python
library calls) -/

/-- Python `max(xs)` on a non-empty list (0 on `[]`; every use is guarded by a
non-emptiness check, matching the source). -/
def listMax : List ℚ → ℚ
  | [] => 0
  | x :: xs => xs.foldl max x

/-- Python `min(xs)` / `np.min` on a non-empty list. -/
def listMin : List ℚ → ℚ
  | [] => 0
  | x :: xs => xs.foldl min x

/-- Stable insertion used by `isortBy`: `x` is placed before the first element
`y` with `¬ lt y x`, so elements equal to `x` that were already in the list
keep their relative position after `x`'s original predecessors. -/
def insertBy (lt : ℚ → ℚ → Bool) (x : ℚ) : List ℚ → List ℚ
  | [] => [x]
  | y :: ys => if lt y x then y :: insertBy lt x ys else x :: y :: ys

/-- Stable sort by the strict order `lt` (insertion sort).  Embeds Python's
`sorted` / `np.sort`: for the total orders on `ℚ` used here the value sequence
agrees with any stable sort. -/
def isortBy (lt : ℚ → ℚ → Bool) : List ℚ → List ℚ
  | [] => []
  | x :: xs => insertBy lt x (isortBy lt xs)

/-- `sorted(scores, reverse=True)` / `np.sort(scores)[::-1]`: descending. -/
def sortDesc (l : List ℚ) : List ℚ := isortBy (fun a b => decide (b < a)) l

/-- `sorted(scores)` / `np.sort(scores)`: ascending. -/
def sortAsc (l : List ℚ) : List ℚ := isortBy (fun a b => decide (a < b)) l

/-- `np.median`: middle element of the ascending sort (mean of the two middle
elements for even length). -/
def npMedian (l : List ℚ) : ℚ :=
  let s := sortAsc l
  let n := l.length
  if n % 2 = 1 then s.getD (n / 2) 0
  else (s.getD (n / 2 - 1) 0 + s.getD (n / 2) 0) / 2

/-- `np.gradient` for a 1-D array: one-sided differences at the two edges,
central differences in the interior. -/
def npGradient (xs : List ℚ) : List ℚ :=
  let n := xs.length
  (List.range n).map fun i =>
    if i = 0 then xs.getD 1 0 - xs.getD 0 0
    else if i = n - 1 then xs.getD (n - 1) 0 - xs.getD (n - 2) 0
    else (xs.getD (i + 1) 0 - xs.getD (i - 1) 0) / 2

/-- Scan underlying `np.argmax(np.abs(l))`: carries (best index, best value);
strict comparison keeps the first occurrence of the maximum, as `np.argmax`
does. -/
def scanMaxAbs : List ℚ → ℕ → ℕ × ℚ → ℕ × ℚ
  | [], _, best => best
  | x :: xs, i, (bi, bv) =>
    if bv < |x| then scanMaxAbs xs (i + 1) (i, |x|)
    else scanMaxAbs xs (i + 1) (bi, bv)

/-- `np.argmax(np.abs(l))`: index of the first element of maximal absolute
value (0 on `[]`; every use is on a non-empty slice). -/
def argmaxAbs : List ℚ → ℕ
  | [] => 0
  | x :: xs => (scanMaxAbs xs 1 (0, |x|)).1

/-! ## Orthology classification (`_classify_orthology`, lines 612–625) -/

/-- `_classify_orthology(n_hits, scores)`.  The thresholds 0.8 and 0.2 are
hardcoded in the source.  `sorted_scores[1]` is embedded with a `getD` default;
all callers pass `n_hits = len(scores)`, so the index is in bounds whenever the
branch is reached. -/
def classifyOrthology (nHits : ℕ) (scores : List ℚ) : String :=
  if scores.isEmpty then "none"
  else
    let best := listMax scores
    if best < 8/10 then "low_confidence"
    else if nHits = 1 then "one_to_one"
    else if 1 < nHits ∧
        (sortDesc scores).getD 0 0 - (sortDesc scores).getD 1 0 ≥ 2/10 then
      "one_to_one"
    else "one_to_many"

/-- Modelled from the spec's words (§4.4) for comparison with
`classifyOrthology`: the spec's classification additionally requires
`hit count ≤ max_hits` for the multi-hit `one_to_one` outcome. -/
def specClassifyOrthology (minBest secondGap : ℚ) (maxHits : ℕ)
    (nHits : ℕ) (scores : List ℚ) : String :=
  if listMax scores < minBest then "low_confidence"
  else if nHits = 1 then "one_to_one"
  else if 1 < nHits ∧
      (sortDesc scores).getD 0 0 - (sortDesc scores).getD 1 0 ≥ secondGap ∧
      nHits ≤ maxHits then
    "one_to_one"
  else "one_to_many"

/-! ## Knee-point threshold (`_find_knee_threshold`, lines 874–892) -/

/-- Start of the curvature search window: `int(len(sorted_scores) * 0.1)`. -/
def kneeStart (n : ℕ) : ℕ := n / 10

/-- End (exclusive) of the search window: `int(len(sorted_scores) * 0.3)`. -/
def kneeStop (n : ℕ) : ℕ := 3 * n / 10

/-- The `[0,1]`-normalised descending score curve:
`(sorted_scores - min) / (max - min + 1e-10)`. -/
def kneeNorm (scores : List ℚ) : List ℚ :=
  let sorted := sortDesc scores
  let mn := listMin sorted
  let mx := listMax sorted
  sorted.map fun x => (x - mn) / (mx - mn + 1 / 10000000000)

/-- The discrete second derivative `np.gradient(np.gradient(norm))`. -/
def kneeGrad2 (scores : List ℚ) : List ℚ := npGradient (npGradient (kneeNorm scores))

/-- `_find_knee_threshold(scores)`: median for fewer than 10 scores, otherwise
the sorted score at `start + argmax(|grad2[start:end]|)`. -/
def findKneeThreshold (scores : List ℚ) : ℚ :=
  let sorted := sortDesc scores
  if sorted.length < 10 then npMedian scores
  else
    let grad2 := kneeGrad2 scores
    let start := kneeStart sorted.length
    let stop := kneeStop sorted.length
    let kneeIdx := start + argmaxAbs ((grad2.drop start).take (stop - start))
    sorted.getD kneeIdx 0

/-! ## Character-list string helpers (kernel-computable embeddings of the
Python string operations used by the pipeline) -/

/-- `cs` starts with `pat` (character lists). -/
def startsWithL : List Char → List Char → Bool
  | [], _ => true
  | _ :: _, [] => false
  | a :: as, b :: bs => a == b && startsWithL as bs

/-- `pat` occurs as a contiguous substring of `cs`. -/
def isInfixL (pat : List Char) : List Char → Bool
  | [] => pat.isEmpty
  | c :: rest => startsWithL pat (c :: rest) || isInfixL pat rest

/-- Python's non-overlapping left-to-right `str.replace`, on character lists,
with fuel (one unit per consumed character suffices for a non-empty pattern). -/
def replaceFuel (pat rep : List Char) : ℕ → List Char → List Char
  | 0, l => l
  | _ + 1, [] => []
  | n + 1, c :: rest =>
    if !pat.isEmpty && startsWithL pat (c :: rest) then
      rep ++ replaceFuel pat rep n (List.drop pat.length (c :: rest))
    else c :: replaceFuel pat rep n rest

/-- Python `s.replace(pat, rep)` (all occurrences, left to right). -/
def pyReplace (s pat rep : String) : String :=
  String.mk (replaceFuel pat.data rep.data s.data.length s.data)

/-- Python `s.endswith(suffix)`. -/
def pyEndsWith (s suffix : String) : Bool :=
  startsWithL suffix.data.reverse s.data.reverse

/-- The characters after the first occurrence of `pat` (`none` if `pat` does
not occur). -/
def afterPat (pat : List Char) : List Char → Option (List Char)
  | [] => none
  | c :: rest =>
    if startsWithL pat (c :: rest) then some (List.drop pat.length (c :: rest))
    else afterPat pat rest

/-- The characters before the first occurrence of `pat` (all of them if `pat`
does not occur). -/
def untilPat (pat : List Char) : List Char → List Char
  | [] => []
  | c :: rest => if startsWithL pat (c :: rest) then [] else c :: untilPat pat rest

/-- Python `s.split()` (split on whitespace runs, dropping empty tokens). -/
def pySplitWs (s : String) : List String :=
  (s.split fun c => c.isWhitespace).filter fun t => !t.isEmpty

/-- Numeric value of a digit string. -/
def digitsVal (cs : List Char) : ℕ :=
  cs.foldl (fun a c => 10 * a + (c.toNat - '0'.toNat)) 0

/-- Split a leading `'-'` or `'+'` sign. -/
def splitSign : List Char → Bool × List Char
  | '-' :: cs => (true, cs)
  | '+' :: cs => (false, cs)
  | cs => (false, cs)

/-- Python `int(s)` on a whitespace-free token: optional sign followed by at
least one digit, `none` (= raised `ValueError`) otherwise. -/
def pyInt? (s : String) : Option ℤ :=
  let (neg, ds) := splitSign s.data
  if !ds.isEmpty && ds.all Char.isDigit then
    some (if neg then -(digitsVal ds : ℤ) else (digitsVal ds : ℤ))
  else none

/-- Python `float(s)` on a whitespace-free token, idealised as exact rational
parsing: optional sign, decimal digits with an optional fractional part and an
optional `e`/`E` exponent; `none` (= raised `ValueError`) otherwise. -/
def pyFloat? (s : String) : Option ℚ :=
  let (neg, r0) := splitSign s.data
  let ip := r0.takeWhile Char.isDigit
  let r1 := r0.dropWhile Char.isDigit
  let (fp, r2) :=
    match r1 with
    | '.' :: rest => (rest.takeWhile Char.isDigit, rest.dropWhile Char.isDigit)
    | _ => ([], r1)
  if ip.isEmpty && fp.isEmpty then none
  else
    let mant : ℚ :=
      ((digitsVal ip : ℚ) + (digitsVal fp : ℚ) / (10 : ℚ) ^ fp.length)
    let signed := if neg then -mant else mant
    match r2 with
    | [] => some signed
    | 'e' :: rest =>
      let (eneg, r3) := splitSign rest
      let ed := r3.takeWhile Char.isDigit
      let r4 := r3.dropWhile Char.isDigit
      if !ed.isEmpty && r4.isEmpty then
        some (if eneg then signed / (10 : ℚ) ^ digitsVal ed
              else signed * (10 : ℚ) ^ digitsVal ed)
      else none
    | 'E' :: rest =>
      let (eneg, r3) := splitSign rest
      let ed := r3.takeWhile Char.isDigit
      let r4 := r3.dropWhile Char.isDigit
      if !ed.isEmpty && r4.isEmpty then
        some (if eneg then signed / (10 : ℚ) ^ digitsVal ed
              else signed * (10 : ℚ) ^ digitsVal ed)
      else none
    | _ => none

/-! ## Identifier mapping

Three code paths turn a raw identifier into a canonical GeneID:
* GO table (`_extract_base_genes`, lines 216–222): `re.search` with the
  configured `protein_to_core_regex`, capture group + configured suffix;
* orthology table (`_parse_orthology_file`, lines 571–583): `re.search` with
  the configured `brachy_id_regex_extract` (default `BdiBd21-3\.\dG\d{7}`),
  whole match + configured suffix;
* domain table (`pgsb/domains/parser.py`, `extract_gene_id`, lines 71–86):
  string replaces plus a hardcoded `.v1.2` suffix.

The two regexes below are the concrete defaults from the source, compiled to
direct character matchers (both patterns are fixed-length, so `re.search` is a
left-to-right scan for a match at each position). -/

/-- Match `AT[1-5MC]G\d{5}` at the head of the character list. -/
def arabAt : List Char → Option String
  | 'A' :: 'T' :: c :: 'G' :: d1 :: d2 :: d3 :: d4 :: d5 :: _ =>
    if (c == '1' || c == '2' || c == '3' || c == '4' || c == '5' ||
        c == 'M' || c == 'C') &&
        d1.isDigit && d2.isDigit && d3.isDigit && d4.isDigit && d5.isDigit then
      some (String.mk ['A', 'T', c, 'G', d1, d2, d3, d4, d5])
    else none
  | _ => none

/-- Match `BdiBd21-3\.\dG\d{7}` at the head of the character list. -/
def brachyAt : List Char → Option String
  | 'B' :: 'd' :: 'i' :: 'B' :: 'd' :: '2' :: '1' :: '-' :: '3' :: '.' ::
      d :: 'G' :: e1 :: e2 :: e3 :: e4 :: e5 :: e6 :: e7 :: _ =>
    if d.isDigit && e1.isDigit && e2.isDigit && e3.isDigit && e4.isDigit &&
        e5.isDigit && e6.isDigit && e7.isDigit then
      some (String.mk ['B', 'd', 'i', 'B', 'd', '2', '1', '-', '3', '.',
                       d, 'G', e1, e2, e3, e4, e5, e6, e7])
    else none
  | _ => none

/-- `re.search` for a fixed-length pattern: try each position left to right. -/
def searchFirst (f : List Char → Option String) : List Char → Option String
  | [] => none
  | c :: rest =>
    match f (c :: rest) with
    | some r => some r
    | none => searchFirst f rest

/-- `re.search(r"AT[1-5MC]G\d{5}", s)`, returning the matched text. -/
def arabSearch (s : String) : Option String := searchFirst arabAt s.data

/-- `re.search(r"BdiBd21-3\.\dG\d{7}", s)`, returning the matched text. -/
def brachySearch (s : String) : Option String := searchFirst brachyAt s.data

/-- The GO-table and orthology-table mapping path under the default
configuration: search for the core-id pattern, append the configured suffix,
drop the row when the pattern does not match.  (With the default
`protein_to_core_regex = "(BdiBd21-3\.\dG\d{7})"` the GO path's capture group
equals the orthology path's whole match, so both paths are this function.) -/
def regexMapId (suffix : String) (raw : String) : Option String :=
  (brachySearch raw).map (· ++ suffix)

/-- `extract_gene_id` from `pgsb/domains/parser.py` (the domain-table mapping
path): remove `.1.p` / `.p`, then append `.v1.2` unless already present. -/
def extract_gene_id (proteinId : String) : String :=
  let base := pyReplace (pyReplace proteinId ".1.p" "") ".p" ""
  if pyEndsWith base ".v1.2" then base else base ++ ".v1.2"

/-! ## Orthology-row parsing (`_parse_orthology_file`, lines 568–610) -/

/-- Per-gene orthology record as stored in `ortho_data`. -/
structure OrthoInfo where
  hits : List String
  best : ℚ
  cls : String
deriving DecidableEq

/-- The token loop over `OrtoB`: for each token matching the Arabidopsis
pattern, the *next* token is parsed with `float` (0.0 when there is no next
token).  `none` embeds the uncaught `ValueError` raised by `float` on a
non-numeric next token. -/
def parseOrtoBAux (all : List String) : ℕ → List String → Option (List (String × ℚ))
  | _, [] => some []
  | i, t :: rest =>
    match arabSearch t with
    | none => parseOrtoBAux all (i + 1) rest
    | some aid =>
      let sc? : Option ℚ :=
        if i + 1 < all.length then pyFloat? (all.getD (i + 1) "") else some 0
      match sc? with
      | none => none
      | some sc => (parseOrtoBAux all (i + 1) rest).map ((aid, sc) :: ·)

/-- Parse the whitespace-tokenised `OrtoB` field into (target id, score)
pairs. -/
def parseOrtoB (tokens : List String) : Option (List (String × ℚ)) :=
  parseOrtoBAux tokens 0 tokens

/-- Process one `OrtoB` cell as `_parse_orthology_file` does: outer `none` is
an uncaught exception; inner `none` is a silently dropped row (no target
hits); otherwise the stored `OrthoInfo`. -/
def parseOrthoRow (ortoB : String) : Option (Option OrthoInfo) :=
  match parseOrtoB (pySplitWs ortoB) with
  | none => none
  | some pairs =>
    if pairs.isEmpty then some none
    else
      some (some
        { hits := pairs.map Prod.fst
          best := listMax (pairs.map Prod.snd)
          cls := classifyOrthology (pairs.map Prod.fst).length (pairs.map Prod.snd) })

/-- The "best orthologue" recorded in the gene's evidence
(`_score_orthology_evidence`, line 551): `hits[0] if hits else None`. -/
def bestOrtholog (info : OrthoInfo) : Option String := info.hits.head?

/-! ## Per-gene data model (`GeneSignatureRanker.__init__` / `run`, lines
115–133) -/

/-- The per-gene evidence dictionary `gene_evidence[gene]` (line 124). -/
structure Evidence where
  go_terms : List String
  go_categories : List String
  matched_domains : List String
  arabidopsis_orthologs : List String
  best_ortholog : Option String
  best_ortholog_score : ℚ
  orthology_class : String
  at_symbol : String
  at_annotation : String
  tair_keyword_hits : List String
  po_terms : List String
  po_context_hits : List String
deriving DecidableEq

/-- `gene_scores_raw[gene]` (line 116). -/
structure RawScores where
  go : ℚ
  domain : ℚ
  orthology : ℚ
  tair : ℚ
  po : ℚ
  synergy : ℚ
deriving DecidableEq

/-- `gene_scores_capped[gene]` (line 120). -/
structure CappedScores where
  go : ℚ
  domain : ℚ
  orthology : ℚ
  tair : ℚ
  po : ℚ
  synergy : ℚ
  total : ℚ
deriving DecidableEq

/-- One synergy rule from `scoring.synergy_rules`. -/
structure SynergyRule where
  name : String
  conds : List String
  bonus : ℚ
deriving DecidableEq

/-- `scoring.caps` from the configuration. -/
structure Caps where
  go_max : ℚ
  domain_max : ℚ
  orthology_max : ℚ
  tair_max : ℚ
  po_max : ℚ
  synergy_max : ℚ
deriving DecidableEq

/-- The configuration slice the scoring stages read.  `goWeights` embeds the
`scoring.weights.go` dictionary: category → (GO term → weight). -/
structure Config where
  goWeights : List (String × List (String × ℚ))
  caps : Caps
  domainMatchScore : ℚ
  expectedPCD : List String
  expectedROS : List String
  bestHitMultiplier : ℚ
  oneToOneBonus : ℚ
  minBestScoreForPoints : ℚ
  tairKeywords : List String
  tairHitScore : ℚ
  poHitScore : ℚ
  rules : List SynergyRule
deriving DecidableEq

/-- Association-list lookup, embedding `d[k]` / `k in d` on Python dicts. -/
def alookup {α : Type} (k : String) : List (String × α) → Option α
  | [] => none
  | (k', v) :: rest => if k = k' then some v else alookup k rest

/-- Sorted-ascending string list (Python `sorted` on strings; all sorted
string lists in the pipeline are first deduplicated, so stability is moot).
Insertion sort on the decidable total order of `String`. -/
def insertStr (x : String) : List String → List String
  | [] => [x]
  | y :: ys => if y < x then y :: insertStr x ys else x :: y :: ys

/-- Python `sorted` on a list of strings. -/
def sortStr : List String → List String
  | [] => []
  | x :: xs => insertStr x (sortStr xs)

/-- Initial evidence record (lines 124–132). -/
def initEvidence : Evidence :=
  { go_terms := [], go_categories := [], matched_domains := []
    arabidopsis_orthologs := [], best_ortholog := none
    best_ortholog_score := 0, orthology_class := "none"
    at_symbol := "", at_annotation := ""
    tair_keyword_hits := [], po_terms := [], po_context_hits := [] }

/-- Full per-gene scoring state: raw scores, capped scores, evidence, and the
gene's `synergy_bonuses` trigger list. -/
structure GeneState where
  raw : RawScores
  capped : CappedScores
  ev : Evidence
  triggers : List String
deriving DecidableEq

/-- State right after initialisation (lines 115–133): all scores zero. -/
def initState : GeneState :=
  { raw := ⟨0, 0, 0, 0, 0, 0⟩, capped := ⟨0, 0, 0, 0, 0, 0, 0⟩
    ev := initEvidence, triggers := [] }

/-! ## GO scorer (`_score_go_evidence`, lines 234–262) -/

/-- Inner loop of `_score_go_evidence` over the categories of
`scoring.weights.go` for one annotation row carrying GO id `goId`: every
category whose weight table contains `goId` adds its weight, records the term,
and adds the category if not yet present. -/
def goScanRow (goId : String) (acc : ℚ × List String × List String) :
    List (String × List (String × ℚ)) → ℚ × List String × List String
  | [] => acc
  | cw :: rest =>
    match alookup goId cw.2 with
    | some w =>
      goScanRow goId
        (acc.1 + w, acc.2.1 ++ [goId],
          if cw.1 ∈ acc.2.2 then acc.2.2 else acc.2.2 ++ [cw.1]) rest
    | none => goScanRow goId acc rest

/-- Outer loop of `_score_go_evidence` over the gene's filtered annotation
rows (the `GO` value of each row, in row order). -/
def goScan (weights : List (String × List (String × ℚ))) :
    List String → (ℚ × List String × List String) → ℚ × List String × List String
  | [], acc => acc
  | r :: rest, acc => goScan weights rest (goScanRow r acc weights)

/-- The GO pass on one gene's state: raw score, capped score,
`sorted(set(go_terms))` and the category list. -/
def goPass (cfg : Config) (rows : List String) (st : GeneState) : GeneState :=
  let res := goScan cfg.goWeights rows (0, [], [])
  { st with
    raw.go := res.1
    capped.go := min res.1 cfg.caps.go_max
    ev.go_terms := sortStr res.2.1.dedup
    ev.go_categories := res.2.2 }

/-! ## Domain scorer (`_score_domain_evidence` lines 373–479,
`_categorize_genes` lines 481–509) -/

/-- One parsed hit from `parse_domtbl` (version-stripped Pfam id, name,
domain e-value); only the id takes part in scoring. -/
structure DomainHit where
  pfam_id : String
  pfam_name : String
  evalue : ℚ
deriving DecidableEq

/-- `_categorize_genes` for one gene: the categories (in configuration order)
whose term sets meet the gene's GO terms; `unknown` for none, the single name
for one, the hyphen-join of the sorted names for several. -/
def geneCategoryLabel (weights : List (String × List (String × ℚ)))
    (goTerms : List String) : String :=
  let cats := (weights.filter fun cw => cw.2.any fun tw => goTerms.contains tw.1).map Prod.fst
  match cats with
  | [] => "unknown"
  | [c] => c
  | _ => String.intercalate "-" (sortStr cats)

/-- Expected-domain list for a category label (lines 439–453).  The `both`
branch is kept although `_categorize_genes` never produces that label. -/
def expectedFor (cfg : Config) (label : String) : List String :=
  if label = "PCD" then cfg.expectedPCD
  else if label = "ROS" then cfg.expectedROS
  else if label = "both" then (cfg.expectedPCD ++ cfg.expectedROS).dedup
  else (cfg.expectedPCD ++ cfg.expectedROS).dedup

/-- The domain pass on one gene: `none` when the scan did not run (layer
disabled or hmmscan/database failure, lines 385–417 — scores keep their
initial zeros); `some hits` is the gene's entry of `parse_domtbl`'s output
(possibly empty).  The raw score is (distinct matched Pfam ids) ×
`domain_match.hit`; the evidence keeps the matched ids (the
`id(name,E=…)` display decoration of the source is elided — the source
recovers exactly the id with `m.split('(')[0]` before counting). -/
def domainPass (cfg : Config) (scan : Option (List DomainHit)) (st : GeneState) :
    GeneState :=
  match scan with
  | none => st
  | some hits =>
    let label := geneCategoryLabel cfg.goWeights st.ev.go_terms
    let expected := expectedFor cfg label
    let matched := (hits.filter fun d => expected.contains d.pfam_id).map fun d => d.pfam_id
    let raw := (matched.dedup.length : ℚ) * cfg.domainMatchScore
    { st with
      raw.domain := raw
      capped.domain := min raw cfg.caps.domain_max
      ev.matched_domains := sortStr matched }

/-! ## Orthology scorer (`_score_orthology_evidence`, lines 511–566) -/

/-- The evidence updates of `_score_orthology_evidence` (lines 550–560): the
orthology fields, plus symbol/annotation from the GFF3 lookup when the best
orthologue has an entry. -/
def orthoEvUpdate (annots : List (String × String × String)) (i : OrthoInfo)
    (ev : Evidence) : Evidence :=
  let ev1 :=
    { ev with
      arabidopsis_orthologs := i.hits
      best_ortholog := i.hits.head?
      best_ortholog_score := i.best
      orthology_class := i.cls }
  match i.hits.head? with
  | none => ev1
  | some b =>
    match alookup b annots with
    | none => ev1
    | some (sym, txt) =>
      { ev1 with at_symbol := sym, at_annotation := txt.take 200 }

/-- The orthology pass on one gene: `none` when the layer is disabled, the
file failed to read, or the gene has no row in `ortho_data` (line 533's
`continue`) — all fields keep their initial values.  `annots` is the
Arabidopsis GFF3 lookup: locus → (symbol, annotation text). -/
def orthoPass (cfg : Config) (annots : List (String × String × String))
    (info : Option OrthoInfo) (st : GeneState) : GeneState :=
  match info with
  | none => st
  | some i =>
    let raw :=
      if i.best < cfg.minBestScoreForPoints then 0
      else i.best * cfg.bestHitMultiplier +
        (if i.cls = "one_to_one" then cfg.oneToOneBonus else 0)
    { st with
      raw.orthology := raw
      capped.orthology := min raw cfg.caps.orthology_max
      ev := orthoEvUpdate annots i st.ev }

/-! ## TAIR keyword scorer (`_score_arabidopsis_keywords`, lines 627–673) -/

/-- Case-insensitive substring test, embedding
`re.compile(re.escape(kw), re.IGNORECASE).search(text)`. -/
def containsCI (needle hay : String) : Bool :=
  isInfixL needle.toLower.data hay.toLower.data

/-- The TAIR keyword pass: skipped entirely (`enabled = false`) when the layer
is disabled, no annotations were loaded, or no keywords are configured (lines
628–637); per gene, skipped when there is no best orthologue or it has no
annotation entry (lines 646–648). -/
def tairPass (cfg : Config) (enabled : Bool)
    (annots : List (String × String × String)) (st : GeneState) : GeneState :=
  if enabled then
    match st.ev.best_ortholog with
    | none => st
    | some b =>
      match alookup b annots with
      | none => st
      | some (sym, txt) =>
        let text := sym ++ " " ++ txt
        let hits := cfg.tairKeywords.filter fun kw => containsCI kw text
        let raw := (hits.length : ℚ) * cfg.tairHitScore
        { st with
          raw.tair := raw
          capped.tair := min raw cfg.caps.tair_max
          ev.at_symbol := sym
          ev.at_annotation := txt.take 200
          ev.tair_keyword_hits := hits }
  else st

/-! ## PO context scorer (`_score_po_context`, lines 675–705) -/

/-- The PO pass: `poTab` is the parsed PO lookup, locus → (po_terms, keyword
hits), both precomputed by `_parse_arabidopsis_po`. -/
def poPass (cfg : Config) (enabled : Bool)
    (poTab : List (String × List String × List String)) (st : GeneState) : GeneState :=
  if enabled then
    match st.ev.best_ortholog with
    | none => st
    | some b =>
      match alookup b poTab with
      | none => st
      | some (terms, hits) =>
        let raw := (hits.length : ℚ) * cfg.poHitScore
        { st with
          raw.po := raw
          capped.po := min raw cfg.caps.po_max
          ev.po_terms := terms.take 5
          ev.po_context_hits := hits }
  else st

/-! ## Synergy detector (`_compute_synergy_bonuses` lines 707–743,
`_evaluate_condition` lines 745–760) -/

/-- The fixed prefix the threshold conditions are dispatched on. -/
def tairThresholdMarker : String := "tair_keyword_hits>="

/-- The threshold substring `condition.split(">=")[1]`: the characters after
the first `>=` up to the next `>=` (the first `>=` is the one ending the
marker, since the marker's head contains no `>`). -/
def thresholdStr (cond : String) : String :=
  match afterPat ['>', '='] cond.data with
  | some rest => String.mk (untilPat ['>', '='] rest)
  | none => ""

/-- `_evaluate_condition`: dispatch on the condition string, in source order;
unrecognised names land in the final `return False`.  `none` embeds the
uncaught `ValueError` of `int(...)` on a non-integer threshold. -/
def evalCondition (ev : Evidence) (cond : String) : Option Bool :=
  if cond = "has_PCD_GO" then some (ev.go_categories.contains "PCD")
  else if cond = "has_ROS_GO" then some (ev.go_categories.contains "ROS")
  else if cond = "has_expected_domain" then some (0 < ev.matched_domains.length)
  else if startsWithL tairThresholdMarker.data cond.data then
    match pyInt? (thresholdStr cond) with
    | some t => some (t ≤ (ev.tair_keyword_hits.length : ℤ))
    | none => none
  else if cond = "has_one_to_one_ortholog" then
    some (ev.orthology_class = "one_to_one")
  else some false

/-- A condition string the dispatch recognises (the four exact names plus the
threshold-marker shape). -/
def recognizedCond (cond : String) : Bool :=
  cond = "has_PCD_GO" || cond = "has_ROS_GO" || cond = "has_expected_domain" ||
    startsWithL tairThresholdMarker.data cond.data ||
    cond = "has_one_to_one_ortholog"

/-- The rule-condition loop with its `break`: conditions are evaluated left to
right, stopping at the first false one (so a later raising condition is never
reached, exactly as in the source). -/
def evalConds (ev : Evidence) : List String → Option Bool
  | [] => some true
  | c :: rest =>
    match evalCondition ev c with
    | none => none
    | some false => some false
    | some true => evalConds ev rest

/-- The rule loop of `_compute_synergy_bonuses` for one gene: total bonus of
the fired rules and their names, in rule order. -/
def synergyRaw (ev : Evidence) : List SynergyRule → Option (ℚ × List String)
  | [] => some (0, [])
  | r :: rest =>
    match evalConds ev r.conds with
    | none => none
    | some true => (synergyRaw ev rest).map fun p => (r.bonus + p.1, r.name :: p.2)
    | some false => synergyRaw ev rest

/-- The synergy pass: early return when no rules are configured (lines
713–715), otherwise raw total and `min(total, synergy_max)`. -/
def synergyPass (cfg : Config) (st : GeneState) : Option GeneState :=
  if cfg.rules.isEmpty then some st
  else
    match synergyRaw st.ev cfg.rules with
    | none => none
    | some (tot, names) =>
      some
        { st with
          raw.synergy := tot
          capped.synergy := min tot cfg.caps.synergy_max
          triggers := st.triggers ++ names }

/-! ## Aggregation (`_compute_total_scores`, lines 762–770) and the whole
per-gene pipeline -/

/-- `_compute_total_scores` for one gene: sum of the six capped scores. -/
def totalPass (st : GeneState) : GeneState :=
  { st with
    capped.total := st.capped.go + st.capped.domain + st.capped.orthology +
      st.capped.tair + st.capped.po + st.capped.synergy }

/-- Per-gene layer inputs: the gene's filtered GO annotation rows, its domain
scan result (`none` = layer skipped), its `ortho_data` entry (`none` = layer
skipped or gene absent), and the enable switches of the two lookup layers. -/
structure GeneInputs where
  goRows : List String
  domainScan : Option (List DomainHit)
  ortho : Option OrthoInfo
  tairEnabled : Bool
  poEnabled : Bool

/-- The scoring pipeline for one gene of the base set, stages 2–8 of `run` in
source order.  `none` embeds an uncaught exception in the synergy stage. -/
def runGene (cfg : Config) (annots : List (String × String × String))
    (poTab : List (String × List String × List String)) (inp : GeneInputs) :
    Option GeneState :=
  let st := goPass cfg inp.goRows initState
  let st := domainPass cfg inp.domainScan st
  let st := orthoPass cfg annots inp.ortho st
  let st := tairPass cfg inp.tairEnabled annots st
  let st := poPass cfg inp.poEnabled poTab st
  (synergyPass cfg st).map totalPass

/-! ## Evidence layers as an index type (for the score-vector invariant) -/

/-- The six evidence layers of the score vector. -/
inductive Layer
  | go
  | domain
  | orthology
  | tair
  | po
  | synergy
deriving DecidableEq

/-- Raw score of a layer. -/
def rawOf (r : RawScores) : Layer → ℚ
  | .go => r.go
  | .domain => r.domain
  | .orthology => r.orthology
  | .tair => r.tair
  | .po => r.po
  | .synergy => r.synergy

/-- Capped score of a layer. -/
def cappedOf (c : CappedScores) : Layer → ℚ
  | .go => c.go
  | .domain => c.domain
  | .orthology => c.orthology
  | .tair => c.tair
  | .po => c.po
  | .synergy => c.synergy

/-- Configured cap of a layer. -/
def capOf (cfg : Config) : Layer → ℚ
  | .go => cfg.caps.go_max
  | .domain => cfg.caps.domain_max
  | .orthology => cfg.caps.orthology_max
  | .tair => cfg.caps.tair_max
  | .po => cfg.caps.po_max
  | .synergy => cfg.caps.synergy_max

/-! ## Spec-side definitions and well-formedness predicates -/

/-- Modelled from the spec's words (§4.2), for comparison with `goScan`: raw
GO score as the sum of the weights of the *distinct* matched GO terms, each
matched term contributing exactly once however many rows carry it. -/
def specGoRawDistinct (weights : List (String × List (String × ℚ)))
    (rows : List String) : ℚ :=
  (rows.dedup.map fun t => (weights.map fun cw => (alookup t cw.2).getD 0).sum).sum

/-- A synergy condition string on which `_evaluate_condition` cannot raise:
either it does not carry the threshold marker, or its threshold parses as an
integer. -/
def condWF (cond : String) : Bool :=
  !startsWithL tairThresholdMarker.data cond.data ||
    (pyInt? (thresholdStr cond)).isSome

/-- All conditions of all configured rules are raise-free. -/
def condsWF (rules : List SynergyRule) : Bool :=
  rules.all fun r => r.conds.all condWF

/-- The rules all of whose conditions evaluate to true on the gene's
evidence. -/
def firedRules (ev : Evidence) (rules : List SynergyRule) : List SynergyRule :=
  rules.filter fun r => r.conds.all fun c => decide (evalCondition ev c = some true)

/-- Non-negativity of every configured weight, cap, multiplier and bonus (the
implicit well-formedness assumption under which the spec asserts scores are
never negative). -/
def NonnegConfig (cfg : Config) : Prop :=
  0 ≤ cfg.caps.go_max ∧ 0 ≤ cfg.caps.domain_max ∧ 0 ≤ cfg.caps.orthology_max ∧
    0 ≤ cfg.caps.tair_max ∧ 0 ≤ cfg.caps.po_max ∧ 0 ≤ cfg.caps.synergy_max ∧
    (∀ cw ∈ cfg.goWeights, ∀ tw ∈ cw.2, 0 ≤ tw.2) ∧
    0 ≤ cfg.domainMatchScore ∧ 0 ≤ cfg.bestHitMultiplier ∧
    0 ≤ cfg.oneToOneBonus ∧ 0 ≤ cfg.minBestScoreForPoints ∧
    0 ≤ cfg.tairHitScore ∧ 0 ≤ cfg.poHitScore ∧ ∀ r ∈ cfg.rules, 0 ≤ r.bonus

/-- The per-layer score-vector invariant: each capped score is
`min(raw, cap)` and each raw score is non-negative. -/
def ScoreInv (cfg : Config) (st : GeneState) : Prop :=
  ∀ L, cappedOf st.capped L = min (rawOf st.raw L) (capOf cfg L) ∧
    0 ≤ rawOf st.raw L

/-- A small concrete configuration used by the witness theorems. -/
def sampleCfg : Config :=
  { goWeights := [("PCD", [("GO:0012501", 3), ("GO:0008219", 2)]),
                  ("ROS", [("GO:0006979", 2)])]
    caps := ⟨10, 5, 6, 6, 3, 6⟩
    domainMatchScore := 2
    expectedPCD := ["PF00656"]
    expectedROS := ["PF00141"]
    bestHitMultiplier := 3
    oneToOneBonus := 2
    minBestScoreForPoints := 1/2
    tairKeywords := ["cell death", "senescence"]
    tairHitScore := 2
    poHitScore := 1
    rules := [⟨"go_plus_domain", ["has_PCD_GO", "has_expected_domain"], 3⟩,
              ⟨"kw_plus_ortho", ["tair_keyword_hits>=2", "has_one_to_one_ortholog"], 2⟩] }

/-! # Theorems -/

/-! ## C2: orthology classification -/

/-- C2, counterexample: `_classify_orthology` has no `max_hits` condition.
With three hits `[1, 0.5, 0.3]` and a top-two gap of `0.5 ≥ 0.2` the code
returns `one_to_one` regardless of the hit count, while the spec's
classification with `max_hits = 2` returns `one_to_many`. -/
theorem classify_orthology_counterexample :
    classifyOrthology 3 [1, 1/2, 3/10] = "one_to_one" ∧
    specClassifyOrthology (8/10) (2/10) 2 3 [1, 1/2, 3/10] = "one_to_many" ∧
    ("one_to_one" : String) ≠ "one_to_many" := by
  refine ⟨by with_unfolding_all rfl, by with_unfolding_all rfl, by decide⟩

/-- C2, amended: for every non-empty score list with `n_hits` equal to the
number of scores, the classification is `low_confidence` when the best score
is below 0.8; `one_to_one` for a single hit at or above 0.8; and for more
than one hit at or above 0.8 it is `one_to_one` exactly when the gap between
the two largest scores is at least 0.2 (no hit-count bound), and
`one_to_many` when that gap is below 0.2.  The 0.8 and 0.2 thresholds are
hardcoded. -/
theorem classify_orthology_amended (scores : List ℚ) (h : scores ≠ [])
    (n : ℕ) (hn : n = scores.length) :
    (listMax scores < 8/10 → classifyOrthology n scores = "low_confidence") ∧
    (8/10 ≤ listMax scores → n = 1 → classifyOrthology n scores = "one_to_one") ∧
    (8/10 ≤ listMax scores → 1 < n →
      (classifyOrthology n scores = "one_to_one" ↔
        (sortDesc scores).getD 0 0 - (sortDesc scores).getD 1 0 ≥ 2/10)) ∧
    (8/10 ≤ listMax scores → 1 < n →
      ¬ ((sortDesc scores).getD 0 0 - (sortDesc scores).getD 1 0 ≥ 2/10) →
      classifyOrthology n scores = "one_to_many") := by
  have hne : scores.isEmpty = false := by
    cases scores with
    | nil => exact absurd rfl h
    | cons a l => rfl
  unfold classifyOrthology
  rw [hne]
  simp only [Bool.false_eq_true, if_false]
  refine ⟨fun hlt => by rw [if_pos hlt], fun hge h1 => ?_, fun hge h1 => ?_,
    fun hge h1 hgap => ?_⟩
  · rw [if_neg (not_lt.mpr hge), if_pos h1]
  · rw [if_neg (not_lt.mpr hge), if_neg (by omega : ¬ n = 1)]
    by_cases hgap :
        (sortDesc scores).getD 0 0 - (sortDesc scores).getD 1 0 ≥ 2/10
    · rw [if_pos ⟨h1, hgap⟩]
      exact ⟨fun _ => hgap, fun _ => rfl⟩
    · rw [if_neg (by exact fun hc => hgap hc.2)]
      exact ⟨fun hc => absurd hc (by decide), fun hc => absurd hc hgap⟩
  · rw [if_neg (not_lt.mpr hge), if_neg (by omega : ¬ n = 1),
      if_neg (by exact fun hc => hgap hc.2)]

/-- C2 witness: the amended classification at a concrete input. -/
theorem classify_orthology_amended_witness :
    classifyOrthology 1 [9/10] = "one_to_one" :=
  (classify_orthology_amended [9/10] (by simp) 1 (by simp)).2.1
    (by with_unfolding_all decide) rfl

/-! ## Supporting lemmas: sorting, extrema, argmax -/

lemma insertBy_perm (lt : ℚ → ℚ → Bool) (x : ℚ) (l : List ℚ) :
    (insertBy lt x l).Perm (x :: l) := by
  induction l with
  | nil => simp [insertBy]
  | cons y ys ih =>
    unfold insertBy
    by_cases h : lt y x
    · rw [if_pos h]
      exact (ih.cons y).trans (List.Perm.swap x y ys)
    · rw [if_neg h]

lemma isortBy_perm (lt : ℚ → ℚ → Bool) (l : List ℚ) : (isortBy lt l).Perm l := by
  induction l with
  | nil => simp [isortBy]
  | cons x xs ih => exact (insertBy_perm lt x (isortBy lt xs)).trans (ih.cons x)

lemma sortDesc_perm (l : List ℚ) : (sortDesc l).Perm l := isortBy_perm _ l

lemma sortDesc_length (l : List ℚ) : (sortDesc l).length = l.length :=
  (sortDesc_perm l).length_eq

lemma le_foldl_max : ∀ (xs : List ℚ) (a b : ℚ), a ≤ b → a ≤ xs.foldl max b := by
  intro xs
  induction xs with
  | nil => intro a b h; simpa using h
  | cons y ys ih =>
    intro a b h
    exact ih a (max b y) (le_trans h (le_max_left b y))

lemma foldl_min_le : ∀ (xs : List ℚ) (a b : ℚ), b ≤ a → xs.foldl min b ≤ a := by
  intro xs
  induction xs with
  | nil => intro a b h; simpa using h
  | cons y ys ih =>
    intro a b h
    exact ih a (min b y) (le_trans (min_le_left b y) h)

lemma listMin_le_listMax (l : List ℚ) (h : l ≠ []) : listMin l ≤ listMax l := by
  cases l with
  | nil => exact absurd rfl h
  | cons x xs =>
    exact le_trans (foldl_min_le xs x x le_rfl) (le_foldl_max xs x x le_rfl)

lemma scanMaxAbs_cases : ∀ (l : List ℚ) (i bi : ℕ) (bv : ℚ),
    scanMaxAbs l i (bi, bv) = (bi, bv) ∨
      ∃ k, k < l.length ∧ scanMaxAbs l i (bi, bv) = (i + k, |l.getD k 0|) := by
  intro l
  induction l with
  | nil => intro i bi bv; left; rfl
  | cons x xs ih =>
    intro i bi bv
    simp only [scanMaxAbs]
    by_cases h : bv < |x|
    · rw [if_pos h]
      rcases ih (i + 1) i |x| with h1 | ⟨k, hk, h2⟩
      · right
        exact ⟨0, by simp, by rw [h1]; simp⟩
      · right
        refine ⟨k + 1, by simpa using hk, ?_⟩
        rw [h2]
        have : i + 1 + k = i + (k + 1) := by omega
        simp [this]
    · rw [if_neg h]
      rcases ih (i + 1) bi bv with h1 | ⟨k, hk, h2⟩
      · left; exact h1
      · right
        refine ⟨k + 1, by simpa using hk, ?_⟩
        rw [h2]
        have : i + 1 + k = i + (k + 1) := by omega
        simp [this]

lemma scanMaxAbs_le : ∀ (l : List ℚ) (i bi : ℕ) (bv : ℚ),
    bv ≤ (scanMaxAbs l i (bi, bv)).2 ∧
      ∀ k, k < l.length → |l.getD k 0| ≤ (scanMaxAbs l i (bi, bv)).2 := by
  intro l
  induction l with
  | nil =>
    intro i bi bv
    exact ⟨le_refl _, fun k hk => absurd hk (by simp)⟩
  | cons x xs ih =>
    intro i bi bv
    simp only [scanMaxAbs]
    by_cases h : bv < |x|
    · rw [if_pos h]
      obtain ⟨ha, hb⟩ := ih (i + 1) i |x|
      refine ⟨le_trans (le_of_lt h) ha, fun k hk => ?_⟩
      cases k with
      | zero => simpa using ha
      | succ k => exact hb k (by simpa using hk)
    · rw [if_neg h]
      obtain ⟨ha, hb⟩ := ih (i + 1) bi bv
      refine ⟨ha, fun k hk => ?_⟩
      cases k with
      | zero => simpa using le_trans (not_lt.mp h) ha
      | succ k => exact hb k (by simpa using hk)

lemma argmaxAbs_spec (l : List ℚ) (h : l ≠ []) :
    argmaxAbs l < l.length ∧
      ∀ k, k < l.length → |l.getD k 0| ≤ |l.getD (argmaxAbs l) 0| := by
  cases l with
  | nil => exact absurd rfl h
  | cons x xs =>
    obtain ⟨ha, hb⟩ := scanMaxAbs_le xs 1 0 |x|
    have hval : argmaxAbs (x :: xs) < (x :: xs).length ∧
        |(x :: xs).getD (argmaxAbs (x :: xs)) 0| = (scanMaxAbs xs 1 (0, |x|)).2 := by
      rcases scanMaxAbs_cases xs 1 0 |x| with h1 | ⟨k, hk, h2⟩
      · constructor
        · simp [argmaxAbs, h1]
        · simp [argmaxAbs, h1, abs_abs]
      · constructor
        · simp [argmaxAbs, h2]; omega
        · simp only [argmaxAbs, h2]
          rw [show 1 + k = k + 1 by omega]
          simp [abs_abs]
    refine ⟨hval.1, fun k hk => ?_⟩
    rw [hval.2]
    cases k with
    | zero => simpa using ha
    | succ k => exact hb k (by simpa using hk)

lemma getD_take_drop (l : List ℚ) (a b k : ℕ) (hk : k < b) :
    ((l.drop a).take b).getD k 0 = l.getD (a + k) 0 := by
  rw [List.getD_eq_getElem?_getD, List.getD_eq_getElem?_getD,
    List.getElem?_take, if_pos hk, List.getElem?_drop]

lemma npGradient_length (xs : List ℚ) : (npGradient xs).length = xs.length := by
  simp [npGradient]

lemma kneeGrad2_length (s : List ℚ) : (kneeGrad2 s).length = s.length := by
  simp [kneeGrad2, npGradient_length, kneeNorm, sortDesc_length]

lemma knee_window (n : ℕ) (h : 10 ≤ n) :
    kneeStart n < kneeStop n ∧ kneeStop n ≤ n := by
  unfold kneeStart kneeStop
  omega

/-- Shared backbone for C5 and C10: for at least 10 scores the returned
threshold is the sorted score at an index of the search window that maximises
the absolute second derivative over the window. -/
lemma knee_spec (scores : List ℚ) (h10 : 10 ≤ scores.length) :
    ∃ i, kneeStart scores.length ≤ i ∧ i < kneeStop scores.length ∧
      findKneeThreshold scores = (sortDesc scores).getD i 0 ∧
      ∀ j, kneeStart scores.length ≤ j → j < kneeStop scores.length →
        |(kneeGrad2 scores).getD j 0| ≤ |(kneeGrad2 scores).getD i 0| := by
  have hlen : (sortDesc scores).length = scores.length := sortDesc_length scores
  have hw := knee_window scores.length h10
  have hg2len : (kneeGrad2 scores).length = scores.length := kneeGrad2_length scores
  set n := scores.length with hn
  set start := kneeStart n with hstart
  set stop := kneeStop n with hstop
  set slice := ((kneeGrad2 scores).drop start).take (stop - start) with hslice
  have hslicelen : slice.length = stop - start := by
    have h1 : stop - start ≤ n - start := by omega
    rw [hslice, List.length_take, List.length_drop, hg2len, Nat.min_eq_left h1]
  have hne : slice ≠ [] := by
    intro hnil
    rw [hnil] at hslicelen
    simp at hslicelen
    omega
  obtain ⟨hm1, hm2⟩ := argmaxAbs_spec slice hne
  rw [hslicelen] at hm1
  set m := argmaxAbs slice with hm
  have heq : findKneeThreshold scores = (sortDesc scores).getD (start + m) 0 := by
    simp only [findKneeThreshold]
    rw [if_neg (by rw [hlen]; omega)]
    rw [hlen]
  have hd : ∀ k, k < stop - start →
      slice.getD k 0 = (kneeGrad2 scores).getD (start + k) 0 := by
    intro k hk
    rw [hslice]
    exact getD_take_drop _ start (stop - start) k hk
  refine ⟨start + m, by omega, by omega, heq, fun j hj1 hj2 => ?_⟩
  have h1 : (kneeGrad2 scores).getD j 0 = slice.getD (j - start) 0 := by
    rw [hd (j - start) (by omega)]
    congr 1
    omega
  have h2 : (kneeGrad2 scores).getD (start + m) 0 = slice.getD m 0 := (hd m hm1).symm
  rw [h1, h2]
  exact hm2 (j - start) (by omega)

/-! ## C5: knee-point selection -/

/-- C5: for fewer than 10 scores `_find_knee_threshold` returns the median;
for at least 10 scores it returns the element of the descending-sorted array
at an index `i` inside the `[n/10, 3n/10)` percentile window at which the
absolute discrete second derivative of the `[0,1]`-normalised sorted curve is
maximal over that window. -/
theorem knee_threshold_spec (scores : List ℚ) :
    (scores.length < 10 → findKneeThreshold scores = npMedian scores) ∧
    (10 ≤ scores.length →
      ∃ i, kneeStart scores.length ≤ i ∧ i < kneeStop scores.length ∧
        findKneeThreshold scores = (sortDesc scores).getD i 0 ∧
        ∀ j, kneeStart scores.length ≤ j → j < kneeStop scores.length →
          |(kneeGrad2 scores).getD j 0| ≤ |(kneeGrad2 scores).getD i 0|) := by
  constructor
  · intro hlt
    simp only [findKneeThreshold]
    rw [if_pos (by rw [sortDesc_length]; exact hlt)]
  · exact knee_spec scores

/-- C5 witness: the knee characterisation applied to a concrete 10-element
score array. -/
theorem knee_threshold_spec_witness :
    10 ≤ ([20, 18, 15, 11, 6, 4, 3, 2, 1, 0] : List ℚ).length ∧
      ∃ i, kneeStart ([20, 18, 15, 11, 6, 4, 3, 2, 1, 0] : List ℚ).length ≤ i ∧
        i < kneeStop ([20, 18, 15, 11, 6, 4, 3, 2, 1, 0] : List ℚ).length ∧
        findKneeThreshold [20, 18, 15, 11, 6, 4, 3, 2, 1, 0] =
          (sortDesc [20, 18, 15, 11, 6, 4, 3, 2, 1, 0]).getD i 0 ∧
        ∀ j, kneeStart ([20, 18, 15, 11, 6, 4, 3, 2, 1, 0] : List ℚ).length ≤ j →
          j < kneeStop ([20, 18, 15, 11, 6, 4, 3, 2, 1, 0] : List ℚ).length →
          |(kneeGrad2 [20, 18, 15, 11, 6, 4, 3, 2, 1, 0]).getD j 0| ≤
            |(kneeGrad2 [20, 18, 15, 11, 6, 4, 3, 2, 1, 0]).getD i 0| :=
  ⟨by decide, (knee_threshold_spec [20, 18, 15, 11, 6, 4, 3, 2, 1, 0]).2 (by decide)⟩

/-! ## C10: totality of the knee computation -/

/-- C10: on every non-empty score array the normalisation denominator
`max - min + 1e-10` is strictly positive (no division by zero even when all
scores are equal), and the function always returns a value: the median for
fewer than 10 scores, otherwise an element of the input array. -/
theorem knee_threshold_total (scores : List ℚ) (h : scores ≠ []) :
    0 < listMax (sortDesc scores) - listMin (sortDesc scores) + 1 / 10000000000 ∧
    (scores.length < 10 → findKneeThreshold scores = npMedian scores) ∧
    (10 ≤ scores.length → findKneeThreshold scores ∈ scores) := by
  have hsne : sortDesc scores ≠ [] := by
    intro hnil
    have := sortDesc_length scores
    rw [hnil] at this
    cases scores with
    | nil => exact h rfl
    | cons a l => simp at this
  refine ⟨?_, ?_, ?_⟩
  · have h1 := listMin_le_listMax (sortDesc scores) hsne
    have h2 : (0 : ℚ) < 1 / 10000000000 := by norm_num
    linarith
  · intro hlt
    simp only [findKneeThreshold]
    rw [if_pos (by rw [sortDesc_length]; exact hlt)]
  · intro h10
    obtain ⟨i, hi1, hi2, heq, _⟩ := knee_spec scores h10
    have hilt : i < (sortDesc scores).length := by
      rw [sortDesc_length]
      have := (knee_window scores.length h10).2
      omega
    rw [heq, List.getD_eq_getElem _ _ hilt]
    exact (sortDesc_perm scores).mem_iff.mp (List.getElem_mem hilt)

/-- C10 witness: totality at a concrete single-element array (all scores
equal, exercising the guarded denominator) and at a concrete 10-element
array. -/
theorem knee_threshold_total_witness :
    (0 < listMax (sortDesc [7, 7, 7]) - listMin (sortDesc [7, 7, 7]) + 1 / 10000000000 ∧
      (([7, 7, 7] : List ℚ).length < 10 →
        findKneeThreshold [7, 7, 7] = npMedian [7, 7, 7]) ∧
      (10 ≤ ([7, 7, 7] : List ℚ).length → findKneeThreshold [7, 7, 7] ∈ [7, 7, 7])) :=
  knee_threshold_total [7, 7, 7] (by simp)

/-! ## C6: identifier-mapping uniformity across the three tables -/

/-- C6: the domain-table path is *not* the mapping applied on the GO and
orthology paths.  On `BdiBd21-3.2G0277200.1` — the second example of
`extract_gene_id`'s own docstring, whose stated result is
`BdiBd21-3.2G0277200.v1.2` — the code's `extract_gene_id` yields
`BdiBd21-3.2G0277200.1.v1.2`, while the regex-based mapping of the GO and
orthology tables (default pattern, `.v1.2` suffix) yields
`BdiBd21-3.2G0277200.v1.2`.  (On the `.1.p` protein form the two paths do
agree, third conjunct.) -/
theorem gene_id_mapping_divergence :
    extract_gene_id "BdiBd21-3.2G0277200.1" = "BdiBd21-3.2G0277200.1.v1.2" ∧
    regexMapId ".v1.2" "BdiBd21-3.2G0277200.1" = some "BdiBd21-3.2G0277200.v1.2" ∧
    extract_gene_id "BdiBd21-3.2G0277200.1.p" = "BdiBd21-3.2G0277200.v1.2" ∧
    some (extract_gene_id "BdiBd21-3.2G0277200.1") ≠
      regexMapId ".v1.2" "BdiBd21-3.2G0277200.1" := by
  refine ⟨by with_unfolding_all rfl, by with_unfolding_all rfl,
    by with_unfolding_all rfl, by with_unfolding_all decide⟩

/-! ## C7: error propagation from the orthology layer -/

/-- C7: an `OrtoB` token stream in which a target id is followed by a
non-numeric token makes `_parse_orthology_file` call `float` on that token;
the raised `ValueError` is not caught anywhere in
`_score_orthology_evidence` (only the `pd.read_csv` call is inside
`try/except`), so the run aborts instead of degrading the layer — first
conjunct, where `none` embeds the uncaught exception.  A well-formed stream
parses normally (second conjunct). -/
theorem ortho_malformed_row_aborts :
    parseOrthoRow "AT1G01010 AT1G01020 0.9" = none ∧
    parseOrthoRow "AT1G01010 0.9 AT1G01020 1.0" =
      some (some ⟨["AT1G01010", "AT1G01020"], 1, "one_to_many"⟩) := by
  refine ⟨by with_unfolding_all rfl, by with_unfolding_all rfl⟩

/-! ## C8: the recorded "best orthologue" -/

/-- C8, counterexample: for the row `AT1G01010 0.5 AT1G01020 0.9` the
recorded best orthologue is `AT1G01010` (the first-listed hit), whose
matching score is `0.5`, while the recorded best score is `0.9` — the
recorded best orthologue is not the target id whose score equals the
maximum. -/
theorem best_ortholog_not_max_counterexample :
    parseOrthoRow "AT1G01010 0.5 AT1G01020 0.9" =
      some (some ⟨["AT1G01010", "AT1G01020"], 9/10, "one_to_one"⟩) ∧
    parseOrtoB (pySplitWs "AT1G01010 0.5 AT1G01020 0.9") =
      some [("AT1G01010", 1/2), ("AT1G01020", 9/10)] ∧
    bestOrtholog ⟨["AT1G01010", "AT1G01020"], 9/10, "one_to_one"⟩ =
      some "AT1G01010" ∧
    ((1 : ℚ)/2 ≠ 9/10) := by
  refine ⟨by with_unfolding_all rfl, by with_unfolding_all rfl,
    by with_unfolding_all rfl, by with_unfolding_all decide⟩

/-- C8, amended: for every successfully parsed orthology row the recorded
best orthologue is the *first-listed* target id of the row's token order
(`hits[0]`), while the recorded best score is the maximum of the scores; the
two refer to the same hit only when the first-listed hit attains the
maximum. -/
theorem best_ortholog_first_listed (s : String) (info : OrthoInfo)
    (h : parseOrthoRow s = some (some info)) :
    ∃ pairs, parseOrtoB (pySplitWs s) = some pairs ∧ pairs ≠ [] ∧
      info.hits = pairs.map Prod.fst ∧
      info.best = listMax (pairs.map Prod.snd) ∧
      bestOrtholog info = (pairs.map Prod.fst).head? := by
  unfold parseOrthoRow at h
  cases hp : parseOrtoB (pySplitWs s) with
  | none => rw [hp] at h; dsimp only at h; exact absurd h (by simp)
  | some pairs =>
    rw [hp] at h
    dsimp only at h
    by_cases he : pairs.isEmpty
    · rw [if_pos he] at h
      exact absurd h (by simp)
    · rw [if_neg he] at h
      simp only [Option.some.injEq] at h
      refine ⟨pairs, rfl, by simpa [List.isEmpty_iff] using he, ?_, ?_, ?_⟩
      · rw [← h]
      · rw [← h]
      · rw [← h]; rfl

/-- C8 witness: the amended statement at a concrete single-hit row. -/
theorem best_ortholog_first_listed_witness :
    ∃ pairs, parseOrtoB (pySplitWs "AT1G01010 0.5") = some pairs ∧ pairs ≠ [] ∧
      (⟨["AT1G01010"], 1/2, "low_confidence"⟩ : OrthoInfo).hits = pairs.map Prod.fst ∧
      (⟨["AT1G01010"], 1/2, "low_confidence"⟩ : OrthoInfo).best =
        listMax (pairs.map Prod.snd) ∧
      bestOrtholog ⟨["AT1G01010"], 1/2, "low_confidence"⟩ =
        (pairs.map Prod.fst).head? :=
  best_ortholog_first_listed "AT1G01010 0.5" ⟨["AT1G01010"], 1/2, "low_confidence"⟩
    (by with_unfolding_all rfl)

/-! ## Supporting lemmas: the GO scan -/

lemma goScanRow_fst (g : String) :
    ∀ (ws : List (String × List (String × ℚ))) (acc : ℚ × List String × List String),
      (goScanRow g acc ws).1 = acc.1 + (ws.map fun cw => (alookup g cw.2).getD 0).sum := by
  intro ws
  induction ws with
  | nil => intro acc; simp [goScanRow]
  | cons cw rest ih =>
    intro acc
    simp only [goScanRow]
    cases hl : alookup g cw.2 with
    | none =>
      dsimp only
      rw [ih]
      simp [hl]
    | some w =>
      dsimp only
      rw [ih]
      simp only [List.map_cons, List.sum_cons, hl, Option.getD_some]
      ring

lemma goScanRow_cats (g c : String) :
    ∀ (ws : List (String × List (String × ℚ))) (acc : ℚ × List String × List String),
      (c ∈ (goScanRow g acc ws).2.2 ↔
        c ∈ acc.2.2 ∨ ∃ p ∈ ws, p.1 = c ∧ (alookup g p.2).isSome) := by
  intro ws
  induction ws with
  | nil => intro acc; simp [goScanRow]
  | cons cw rest ih =>
    intro acc
    simp only [goScanRow]
    cases hl : alookup g cw.2 with
    | none =>
      dsimp only
      rw [ih]
      simp only [List.mem_cons]
      constructor
      · rintro (h | ⟨p, hp, he, hs⟩)
        · exact Or.inl h
        · exact Or.inr ⟨p, Or.inr hp, he, hs⟩
      · rintro (h | ⟨p, hp | hp, he, hs⟩)
        · exact Or.inl h
        · subst hp; rw [hl] at hs; simp at hs
        · exact Or.inr ⟨p, hp, he, hs⟩
    | some w =>
      dsimp only
      rw [ih]
      have hmem : c ∈ (if cw.1 ∈ acc.2.2 then acc.2.2 else acc.2.2 ++ [cw.1]) ↔
          c ∈ acc.2.2 ∨ c = cw.1 := by
        by_cases hin : cw.1 ∈ acc.2.2
        · rw [if_pos hin]
          constructor
          · exact Or.inl
          · rintro (h | h)
            · exact h
            · exact h ▸ hin
        · rw [if_neg hin]
          simp [List.mem_append]
      rw [hmem]
      simp only [List.mem_cons]
      constructor
      · rintro ((h | h) | ⟨p, hp, he, hs⟩)
        · exact Or.inl h
        · exact Or.inr ⟨cw, Or.inl rfl, h.symm, by rw [hl]; simp⟩
        · exact Or.inr ⟨p, Or.inr hp, he, hs⟩
      · rintro (h | ⟨p, hp | hp, he, hs⟩)
        · exact Or.inl (Or.inl h)
        · subst hp; exact Or.inl (Or.inr he.symm)
        · exact Or.inr ⟨p, hp, he, hs⟩

lemma goScan_fst (ws : List (String × List (String × ℚ))) :
    ∀ (rows : List String) (acc : ℚ × List String × List String),
      (goScan ws rows acc).1 =
        acc.1 + (rows.map fun t => (ws.map fun cw => (alookup t cw.2).getD 0).sum).sum := by
  intro rows
  induction rows with
  | nil => intro acc; simp [goScan]
  | cons r rest ih =>
    intro acc
    simp only [goScan]
    rw [ih, goScanRow_fst]
    simp only [List.map_cons, List.sum_cons]
    ring

lemma goScan_cats (ws : List (String × List (String × ℚ))) (c : String) :
    ∀ (rows : List String) (acc : ℚ × List String × List String),
      (c ∈ (goScan ws rows acc).2.2 ↔
        c ∈ acc.2.2 ∨ ∃ t ∈ rows, ∃ p ∈ ws, p.1 = c ∧ (alookup t p.2).isSome) := by
  intro rows
  induction rows with
  | nil => intro acc; simp [goScan]
  | cons r rest ih =>
    intro acc
    simp only [goScan]
    rw [ih]
    rw [goScanRow_cats]
    simp only [List.mem_cons]
    constructor
    · rintro ((h | ⟨p, hp, he, hs⟩) | ⟨t, ht, p, hp, he, hs⟩)
      · exact Or.inl h
      · exact Or.inr ⟨r, Or.inl rfl, p, hp, he, hs⟩
      · exact Or.inr ⟨t, Or.inr ht, p, hp, he, hs⟩
    · rintro (h | ⟨t, ht | ht, p, hp, he, hs⟩)
      · exact Or.inl (Or.inl h)
      · subst ht; exact Or.inl (Or.inr ⟨p, hp, he, hs⟩)
      · exact Or.inr ⟨t, ht, p, hp, he, hs⟩

/-! ## C3: GO raw score and category membership -/

/-- C3, counterexample: with one category weighting term `GO:0012501` at 2 and
a gene carrying two annotation rows with that same term, `_score_go_evidence`
computes raw score 4 (once per row), while the spec's distinct-term sum is 2. -/
theorem go_score_distinct_counterexample :
    (goScan [("PCD", [("GO:0012501", 2)])] ["GO:0012501", "GO:0012501"] (0, [], [])).1 = 4 ∧
    specGoRawDistinct [("PCD", [("GO:0012501", 2)])] ["GO:0012501", "GO:0012501"] = 2 ∧
    ((4 : ℚ) ≠ 2) := by
  refine ⟨by with_unfolding_all rfl, by with_unfolding_all rfl,
    by with_unfolding_all decide⟩

/-- C3, amended: for every gene the raw GO score is the sum, over its
annotation rows and over the categories whose weight table contains the row's
GO term, of that weight — a term carried by several rows, or listed in
several categories, contributes once per row and per category.  The category
membership part of the claim is unchanged: the gene belongs to exactly the
categories containing at least one of its matched terms. -/
theorem go_score_rowwise (weights : List (String × List (String × ℚ)))
    (rows : List String) :
    (goScan weights rows (0, [], [])).1 =
      (rows.map fun t => (weights.map fun cw => (alookup t cw.2).getD 0).sum).sum ∧
    ∀ c, c ∈ (goScan weights rows (0, [], [])).2.2 ↔
      ∃ t ∈ rows, ∃ p ∈ weights, p.1 = c ∧ (alookup t p.2).isSome := by
  constructor
  · rw [goScan_fst]
    simp
  · intro c
    rw [goScan_cats]
    simp

/-! ## Supporting lemmas: synergy evaluation -/

lemma evalCondition_isSome (ev : Evidence) (c : String) (h : condWF c = true) :
    (evalCondition ev c).isSome := by
  unfold evalCondition
  split_ifs with h1 h2 h3 h4 h5
  · simp
  · simp
  · simp
  · cases hp : pyInt? (thresholdStr c) with
    | some t => simp
    | none => simp [condWF, h4, hp] at h
  · simp
  · simp

lemma evalCondition_unrecognized (ev : Evidence) (c : String)
    (h : recognizedCond c = false) : evalCondition ev c = some false := by
  unfold recognizedCond at h
  simp only [Bool.or_eq_false_iff] at h
  obtain ⟨⟨⟨⟨h1, h2⟩, h3⟩, h4⟩, h5⟩ := h
  unfold evalCondition
  rw [if_neg (by simpa using h1), if_neg (by simpa using h2),
    if_neg (by simpa using h3), if_neg (by simp [h4]), if_neg (by simpa using h5)]

lemma evalConds_eq (ev : Evidence) :
    ∀ cs : List String, cs.all condWF = true →
      evalConds ev cs = some (cs.all fun c => decide (evalCondition ev c = some true)) := by
  intro cs
  induction cs with
  | nil => intro _; rfl
  | cons c rest ih =>
    intro h
    simp only [List.all_cons, Bool.and_eq_true] at h
    have hs := evalCondition_isSome ev c h.1
    simp only [evalConds]
    cases he : evalCondition ev c with
    | none => rw [he] at hs; simp at hs
    | some b =>
      cases b with
      | false => simp [List.all_cons, he]
      | true =>
        dsimp only
        rw [ih h.2]
        simp [List.all_cons, he]

lemma synergyRaw_eq (ev : Evidence) :
    ∀ rules : List SynergyRule, condsWF rules = true →
      synergyRaw ev rules =
        some (((firedRules ev rules).map SynergyRule.bonus).sum,
          (firedRules ev rules).map SynergyRule.name) := by
  intro rules
  induction rules with
  | nil => intro _; simp [synergyRaw, firedRules]
  | cons r rest ih =>
    intro h
    simp only [condsWF, List.all_cons, Bool.and_eq_true] at h
    have hr := evalConds_eq ev r.conds h.1
    simp only [synergyRaw]
    rw [hr]
    by_cases hf : (r.conds.all fun c => decide (evalCondition ev c = some true)) = true
    · rw [hf]
      dsimp only
      rw [ih h.2]
      simp [firedRules, List.filter_cons, hf]
    · have hf' : (r.conds.all fun c => decide (evalCondition ev c = some true)) = false := by
        simpa using hf
      rw [hf']
      dsimp only
      rw [ih h.2]
      simp [firedRules, List.filter_cons, hf']

/-! ## C4: synergy bonuses, caps, and the fail-closed dispatch -/

/-- C4: for every gene state and raise-free non-empty rule list, the synergy
pass succeeds; the raw synergy bonus is the sum of the bonuses of exactly the
rules all of whose conditions evaluate to true, and the capped bonus is that
sum capped at `synergy_max`; every condition string the dispatch does not
recognise evaluates to false (fail-closed), so a rule containing an
unrecognised condition never fires. -/
theorem synergy_capped_fail_closed (cfg : Config) (st : GeneState)
    (hwf : condsWF cfg.rules = true) (hne : cfg.rules ≠ []) :
    ∃ st', synergyPass cfg st = some st' ∧
      st'.raw.synergy = ((firedRules st.ev cfg.rules).map SynergyRule.bonus).sum ∧
      st'.capped.synergy =
        min (((firedRules st.ev cfg.rules).map SynergyRule.bonus).sum)
          cfg.caps.synergy_max ∧
      (∀ cond, recognizedCond cond = false →
        evalCondition st.ev cond = some false) ∧
      ∀ r ∈ cfg.rules, (∃ c ∈ r.conds, recognizedCond c = false) →
        r ∉ firedRules st.ev cfg.rules := by
  have hine : ¬ cfg.rules.isEmpty = true := by
    cases hr : cfg.rules with
    | nil => exact absurd hr hne
    | cons a l => simp [hr]
  unfold synergyPass
  rw [if_neg hine, synergyRaw_eq st.ev cfg.rules hwf]
  dsimp only
  refine ⟨_, rfl, rfl, rfl,
    fun cond h => evalCondition_unrecognized st.ev cond h, ?_⟩
  rintro r hr ⟨c, hc, hcr⟩ hmem
  rw [firedRules, List.mem_filter] at hmem
  have hall := hmem.2
  rw [List.all_eq_true] at hall
  have hct := hall c hc
  rw [evalCondition_unrecognized st.ev c hcr] at hct
  simp at hct

/-- C4 witness: the synergy characterisation at the sample configuration and
the initial state (no evidence, so no rule fires and the bonus is 0). -/
theorem synergy_capped_fail_closed_witness :
    condsWF sampleCfg.rules = true ∧ sampleCfg.rules ≠ [] ∧
      ∃ st', synergyPass sampleCfg initState = some st' ∧
        st'.raw.synergy =
          ((firedRules initState.ev sampleCfg.rules).map SynergyRule.bonus).sum ∧
        st'.capped.synergy =
          min (((firedRules initState.ev sampleCfg.rules).map SynergyRule.bonus).sum)
            sampleCfg.caps.synergy_max ∧
        (∀ cond, recognizedCond cond = false →
          evalCondition initState.ev cond = some false) ∧
        ∀ r ∈ sampleCfg.rules, (∃ c ∈ r.conds, recognizedCond c = false) →
          r ∉ firedRules initState.ev sampleCfg.rules :=
  ⟨by with_unfolding_all rfl, by with_unfolding_all decide,
    synergy_capped_fail_closed sampleCfg initState (by with_unfolding_all rfl)
      (by with_unfolding_all decide)⟩

/-! ## Supporting lemmas: per-pass evidence frames -/

lemma orthoEvUpdate_frames (annots : List (String × String × String))
    (i : OrthoInfo) (ev : Evidence) :
    (orthoEvUpdate annots i ev).go_terms = ev.go_terms ∧
    (orthoEvUpdate annots i ev).go_categories = ev.go_categories ∧
    (orthoEvUpdate annots i ev).matched_domains = ev.matched_domains ∧
    (orthoEvUpdate annots i ev).tair_keyword_hits = ev.tair_keyword_hits ∧
    (orthoEvUpdate annots i ev).po_terms = ev.po_terms ∧
    (orthoEvUpdate annots i ev).po_context_hits = ev.po_context_hits := by
  unfold orthoEvUpdate
  split
  · exact ⟨rfl, rfl, rfl, rfl, rfl, rfl⟩
  · split
    · exact ⟨rfl, rfl, rfl, rfl, rfl, rfl⟩
    · exact ⟨rfl, rfl, rfl, rfl, rfl, rfl⟩

lemma tairPass_frames (cfg : Config) (enabled : Bool)
    (annots : List (String × String × String)) (st : GeneState) :
    (tairPass cfg enabled annots st).ev.go_terms = st.ev.go_terms ∧
    (tairPass cfg enabled annots st).ev.go_categories = st.ev.go_categories ∧
    (tairPass cfg enabled annots st).ev.matched_domains = st.ev.matched_domains ∧
    (tairPass cfg enabled annots st).ev.arabidopsis_orthologs =
      st.ev.arabidopsis_orthologs ∧
    (tairPass cfg enabled annots st).ev.best_ortholog = st.ev.best_ortholog ∧
    (tairPass cfg enabled annots st).ev.best_ortholog_score =
      st.ev.best_ortholog_score ∧
    (tairPass cfg enabled annots st).ev.orthology_class = st.ev.orthology_class ∧
    (tairPass cfg enabled annots st).ev.po_terms = st.ev.po_terms ∧
    (tairPass cfg enabled annots st).ev.po_context_hits = st.ev.po_context_hits := by
  unfold tairPass
  split
  · split
    · exact ⟨rfl, rfl, rfl, rfl, rfl, rfl, rfl, rfl, rfl⟩
    · split
      · exact ⟨rfl, rfl, rfl, rfl, rfl, rfl, rfl, rfl, rfl⟩
      · exact ⟨rfl, rfl, rfl, rfl, rfl, rfl, rfl, rfl, rfl⟩
  · exact ⟨rfl, rfl, rfl, rfl, rfl, rfl, rfl, rfl, rfl⟩

lemma poPass_frames (cfg : Config) (enabled : Bool)
    (poTab : List (String × List String × List String)) (st : GeneState) :
    (poPass cfg enabled poTab st).ev.go_terms = st.ev.go_terms ∧
    (poPass cfg enabled poTab st).ev.go_categories = st.ev.go_categories ∧
    (poPass cfg enabled poTab st).ev.matched_domains = st.ev.matched_domains ∧
    (poPass cfg enabled poTab st).ev.arabidopsis_orthologs =
      st.ev.arabidopsis_orthologs ∧
    (poPass cfg enabled poTab st).ev.best_ortholog = st.ev.best_ortholog ∧
    (poPass cfg enabled poTab st).ev.best_ortholog_score =
      st.ev.best_ortholog_score ∧
    (poPass cfg enabled poTab st).ev.orthology_class = st.ev.orthology_class ∧
    (poPass cfg enabled poTab st).ev.at_symbol = st.ev.at_symbol ∧
    Evidence.at_annotation (poPass cfg enabled poTab st).ev =
      Evidence.at_annotation st.ev ∧
    (poPass cfg enabled poTab st).ev.tair_keyword_hits = st.ev.tair_keyword_hits := by
  unfold poPass
  split
  · split
    · exact ⟨rfl, rfl, rfl, rfl, rfl, rfl, rfl, rfl, rfl, rfl⟩
    · split
      · exact ⟨rfl, rfl, rfl, rfl, rfl, rfl, rfl, rfl, rfl, rfl⟩
      · exact ⟨rfl, rfl, rfl, rfl, rfl, rfl, rfl, rfl, rfl, rfl⟩
  · exact ⟨rfl, rfl, rfl, rfl, rfl, rfl, rfl, rfl, rfl, rfl⟩

/-! ## C9: field ownership across the five scorer passes -/

/-- C9, counterexample: the evidence field `at_symbol` is assigned by *two*
scorer passes.  Starting from the initial evidence, the orthology pass sets it
(from the GFF3 lookup of the best orthologue, lines 555–560), and the keyword
pass sets it as well (lines 663–667) — here both from `""` to `"SYM"`. -/
theorem at_symbol_two_writers_counterexample :
    (orthoPass sampleCfg [("AT1G01010", "SYM", "d")]
      (some ⟨["AT1G01010"], 1, "one_to_one"⟩) initState).ev.at_symbol = "SYM" ∧
    initState.ev.at_symbol = "" ∧
    (tairPass sampleCfg true [("AT1G01010", "SYM", "d")]
      { initState with ev.best_ortholog := some "AT1G01010" }).ev.at_symbol = "SYM" ∧
    ({ initState with ev.best_ortholog := some "AT1G01010" }).ev.at_symbol = "" := by
  refine ⟨by with_unfolding_all rfl, rfl, by with_unfolding_all rfl, rfl⟩

/-- C9, amended: each `GeneEvidence` field other than `at_symbol` and
`at_annotation` is assigned by at most one scorer pass — the pass-by-pass
frame conditions below show each pass leaves every field outside its own
group unchanged (GO: `go_terms`, `go_categories`; domain: `matched_domains`;
orthology: `arabidopsis_orthologs`, `best_ortholog`, `best_ortholog_score`,
`orthology_class`; keyword: `tair_keyword_hits`; PO: `po_terms`,
`po_context_hits`) — while `at_symbol` and `at_annotation` are shared between
the orthology and keyword passes (each of those two passes preserves all
fields except its own group and those two). -/
theorem scorer_field_frames :
    (∀ cfg rows st,
      (goPass cfg rows st).ev.matched_domains = st.ev.matched_domains ∧
      (goPass cfg rows st).ev.arabidopsis_orthologs = st.ev.arabidopsis_orthologs ∧
      (goPass cfg rows st).ev.best_ortholog = st.ev.best_ortholog ∧
      (goPass cfg rows st).ev.best_ortholog_score = st.ev.best_ortholog_score ∧
      (goPass cfg rows st).ev.orthology_class = st.ev.orthology_class ∧
      (goPass cfg rows st).ev.at_symbol = st.ev.at_symbol ∧
      Evidence.at_annotation (goPass cfg rows st).ev = Evidence.at_annotation st.ev ∧
      (goPass cfg rows st).ev.tair_keyword_hits = st.ev.tair_keyword_hits ∧
      (goPass cfg rows st).ev.po_terms = st.ev.po_terms ∧
      (goPass cfg rows st).ev.po_context_hits = st.ev.po_context_hits) ∧
    (∀ cfg scan st,
      (domainPass cfg scan st).ev.go_terms = st.ev.go_terms ∧
      (domainPass cfg scan st).ev.go_categories = st.ev.go_categories ∧
      (domainPass cfg scan st).ev.arabidopsis_orthologs = st.ev.arabidopsis_orthologs ∧
      (domainPass cfg scan st).ev.best_ortholog = st.ev.best_ortholog ∧
      (domainPass cfg scan st).ev.best_ortholog_score = st.ev.best_ortholog_score ∧
      (domainPass cfg scan st).ev.orthology_class = st.ev.orthology_class ∧
      (domainPass cfg scan st).ev.at_symbol = st.ev.at_symbol ∧
      Evidence.at_annotation (domainPass cfg scan st).ev =
        Evidence.at_annotation st.ev ∧
      (domainPass cfg scan st).ev.tair_keyword_hits = st.ev.tair_keyword_hits ∧
      (domainPass cfg scan st).ev.po_terms = st.ev.po_terms ∧
      (domainPass cfg scan st).ev.po_context_hits = st.ev.po_context_hits) ∧
    (∀ cfg annots info st,
      (orthoPass cfg annots info st).ev.go_terms = st.ev.go_terms ∧
      (orthoPass cfg annots info st).ev.go_categories = st.ev.go_categories ∧
      (orthoPass cfg annots info st).ev.matched_domains = st.ev.matched_domains ∧
      (orthoPass cfg annots info st).ev.tair_keyword_hits = st.ev.tair_keyword_hits ∧
      (orthoPass cfg annots info st).ev.po_terms = st.ev.po_terms ∧
      (orthoPass cfg annots info st).ev.po_context_hits = st.ev.po_context_hits) ∧
    (∀ cfg enabled annots st,
      (tairPass cfg enabled annots st).ev.go_terms = st.ev.go_terms ∧
      (tairPass cfg enabled annots st).ev.go_categories = st.ev.go_categories ∧
      (tairPass cfg enabled annots st).ev.matched_domains = st.ev.matched_domains ∧
      (tairPass cfg enabled annots st).ev.arabidopsis_orthologs =
        st.ev.arabidopsis_orthologs ∧
      (tairPass cfg enabled annots st).ev.best_ortholog = st.ev.best_ortholog ∧
      (tairPass cfg enabled annots st).ev.best_ortholog_score =
        st.ev.best_ortholog_score ∧
      (tairPass cfg enabled annots st).ev.orthology_class = st.ev.orthology_class ∧
      (tairPass cfg enabled annots st).ev.po_terms = st.ev.po_terms ∧
      (tairPass cfg enabled annots st).ev.po_context_hits = st.ev.po_context_hits) ∧
    (∀ cfg enabled poTab st,
      (poPass cfg enabled poTab st).ev.go_terms = st.ev.go_terms ∧
      (poPass cfg enabled poTab st).ev.go_categories = st.ev.go_categories ∧
      (poPass cfg enabled poTab st).ev.matched_domains = st.ev.matched_domains ∧
      (poPass cfg enabled poTab st).ev.arabidopsis_orthologs =
        st.ev.arabidopsis_orthologs ∧
      (poPass cfg enabled poTab st).ev.best_ortholog = st.ev.best_ortholog ∧
      (poPass cfg enabled poTab st).ev.best_ortholog_score =
        st.ev.best_ortholog_score ∧
      (poPass cfg enabled poTab st).ev.orthology_class = st.ev.orthology_class ∧
      (poPass cfg enabled poTab st).ev.at_symbol = st.ev.at_symbol ∧
      Evidence.at_annotation (poPass cfg enabled poTab st).ev =
        Evidence.at_annotation st.ev ∧
      (poPass cfg enabled poTab st).ev.tair_keyword_hits =
        st.ev.tair_keyword_hits) := by
  refine ⟨?_, ?_, ?_, ?_, ?_⟩
  · intro cfg rows st
    exact ⟨rfl, rfl, rfl, rfl, rfl, rfl, rfl, rfl, rfl, rfl⟩
  · intro cfg scan st
    cases scan with
    | none => exact ⟨rfl, rfl, rfl, rfl, rfl, rfl, rfl, rfl, rfl, rfl, rfl⟩
    | some hits => exact ⟨rfl, rfl, rfl, rfl, rfl, rfl, rfl, rfl, rfl, rfl, rfl⟩
  · intro cfg annots info st
    cases info with
    | none => exact ⟨rfl, rfl, rfl, rfl, rfl, rfl⟩
    | some i => exact orthoEvUpdate_frames annots i st.ev
  · intro cfg enabled annots st
    exact tairPass_frames cfg enabled annots st
  · intro cfg enabled poTab st
    exact poPass_frames cfg enabled poTab st

/-! ## Supporting lemmas: the score-vector invariant through the pipeline -/

lemma alookup_getD_nonneg (k : String) (l : List (String × ℚ))
    (h : ∀ tw ∈ l, 0 ≤ tw.2) : 0 ≤ (alookup k l).getD 0 := by
  induction l with
  | nil => simp [alookup]
  | cons p rest ih =>
    simp only [alookup]
    by_cases hk : k = p.1
    · rw [if_pos hk]
      exact h p (List.mem_cons_self p rest)
    · rw [if_neg hk]
      exact ih fun tw htw => h tw (List.mem_cons_of_mem p htw)

lemma goScan_nonneg (weights : List (String × List (String × ℚ)))
    (rows : List String) (hw : ∀ cw ∈ weights, ∀ tw ∈ cw.2, 0 ≤ tw.2) :
    0 ≤ (goScan weights rows (0, [], [])).1 := by
  rw [goScan_fst]
  have h1 : 0 ≤ (rows.map fun t => (weights.map fun cw => (alookup t cw.2).getD 0).sum).sum := by
    apply List.sum_nonneg
    intro x hx
    obtain ⟨t, _, rfl⟩ := List.mem_map.mp hx
    apply List.sum_nonneg
    intro y hy
    obtain ⟨cw, hcw, rfl⟩ := List.mem_map.mp hy
    exact alookup_getD_nonneg t cw.2 (hw cw hcw)
  simpa using h1

lemma capOf_nonneg (cfg : Config) (h : NonnegConfig cfg) (L : Layer) :
    0 ≤ capOf cfg L := by
  obtain ⟨h1, h2, h3, h4, h5, h6, -⟩ := h
  cases L <;> assumption

lemma init_inv (cfg : Config) (h : NonnegConfig cfg) : ScoreInv cfg initState := by
  intro L
  have hc := capOf_nonneg cfg h L
  cases L <;> exact ⟨(min_eq_left hc).symm, le_refl 0⟩

lemma goPass_inv (cfg : Config) (rows : List String) (st : GeneState)
    (h : NonnegConfig cfg) (hinv : ScoreInv cfg st) :
    ScoreInv cfg (goPass cfg rows st) := by
  obtain ⟨hg, hd, ho, ht, hp, hs, hw, hms, hmul, hbon, hmin, hts, hps, hr⟩ := h
  intro L
  cases L with
  | go => exact ⟨rfl, goScan_nonneg cfg.goWeights rows hw⟩
  | domain => exact hinv .domain
  | orthology => exact hinv .orthology
  | tair => exact hinv .tair
  | po => exact hinv .po
  | synergy => exact hinv .synergy

lemma domainPass_inv (cfg : Config) (scan : Option (List DomainHit))
    (st : GeneState) (h : NonnegConfig cfg) (hinv : ScoreInv cfg st) :
    ScoreInv cfg (domainPass cfg scan st) := by
  obtain ⟨hg, hd, ho, ht, hp, hs, hw, hms, hmul, hbon, hmin, hts, hps, hr⟩ := h
  cases scan with
  | none => exact hinv
  | some hits =>
    intro L
    cases L with
    | domain => exact ⟨rfl, mul_nonneg (Nat.cast_nonneg _) hms⟩
    | go => exact hinv .go
    | orthology => exact hinv .orthology
    | tair => exact hinv .tair
    | po => exact hinv .po
    | synergy => exact hinv .synergy

lemma orthoPass_inv (cfg : Config) (annots : List (String × String × String))
    (info : Option OrthoInfo) (st : GeneState)
    (h : NonnegConfig cfg) (hinv : ScoreInv cfg st) :
    ScoreInv cfg (orthoPass cfg annots info st) := by
  obtain ⟨hg, hd, ho, ht, hp, hs, hw, hms, hmul, hbon, hmin, hts, hps, hr⟩ := h
  cases info with
  | none => exact hinv
  | some i =>
    intro L
    cases L with
    | orthology =>
      refine ⟨rfl, ?_⟩
      show (0 : ℚ) ≤
        if i.best < cfg.minBestScoreForPoints then 0
        else i.best * cfg.bestHitMultiplier +
          (if i.cls = "one_to_one" then cfg.oneToOneBonus else 0)
      split_ifs with hb hc
      · exact le_refl 0
      · exact add_nonneg (mul_nonneg (le_trans hmin (not_lt.mp hb)) hmul) hbon
      · simpa using mul_nonneg (le_trans hmin (not_lt.mp hb)) hmul
    | go => exact hinv .go
    | domain => exact hinv .domain
    | tair => exact hinv .tair
    | po => exact hinv .po
    | synergy => exact hinv .synergy

lemma tairPass_inv (cfg : Config) (enabled : Bool)
    (annots : List (String × String × String)) (st : GeneState)
    (h : NonnegConfig cfg) (hinv : ScoreInv cfg st) :
    ScoreInv cfg (tairPass cfg enabled annots st) := by
  obtain ⟨hg, hd, ho, ht, hp, hs, hw, hms, hmul, hbon, hmin, hts, hps, hr⟩ := h
  unfold tairPass
  split
  · split
    · exact hinv
    · split
      · exact hinv
      · intro L
        cases L with
        | tair => exact ⟨rfl, mul_nonneg (Nat.cast_nonneg _) hts⟩
        | go => exact hinv .go
        | domain => exact hinv .domain
        | orthology => exact hinv .orthology
        | po => exact hinv .po
        | synergy => exact hinv .synergy
  · exact hinv

lemma poPass_inv (cfg : Config) (enabled : Bool)
    (poTab : List (String × List String × List String)) (st : GeneState)
    (h : NonnegConfig cfg) (hinv : ScoreInv cfg st) :
    ScoreInv cfg (poPass cfg enabled poTab st) := by
  obtain ⟨hg, hd, ho, ht, hp, hs, hw, hms, hmul, hbon, hmin, hts, hps, hr⟩ := h
  unfold poPass
  split
  · split
    · exact hinv
    · split
      · exact hinv
      · intro L
        cases L with
        | po => exact ⟨rfl, mul_nonneg (Nat.cast_nonneg _) hps⟩
        | go => exact hinv .go
        | domain => exact hinv .domain
        | orthology => exact hinv .orthology
        | tair => exact hinv .tair
        | synergy => exact hinv .synergy
  · exact hinv

lemma synergyPass_some (cfg : Config) (st : GeneState)
    (h : NonnegConfig cfg) (hwf : condsWF cfg.rules = true)
    (hinv : ScoreInv cfg st) :
    ∃ st', synergyPass cfg st = some st' ∧ ScoreInv cfg st' := by
  obtain ⟨hg, hd, ho, ht, hp, hs, hw, hms, hmul, hbon, hmin, hts, hps, hr⟩ := h
  unfold synergyPass
  by_cases hemp : cfg.rules.isEmpty
  · rw [if_pos hemp]
    exact ⟨st, rfl, hinv⟩
  · rw [if_neg hemp, synergyRaw_eq st.ev cfg.rules hwf]
    dsimp only
    refine ⟨_, rfl, ?_⟩
    intro L
    cases L with
    | synergy =>
      refine ⟨rfl, ?_⟩
      apply List.sum_nonneg
      intro x hx
      obtain ⟨r, hrf, rfl⟩ := List.mem_map.mp hx
      exact hr r (List.mem_of_mem_filter hrf)
    | go => exact hinv .go
    | domain => exact hinv .domain
    | orthology => exact hinv .orthology
    | tair => exact hinv .tair
    | po => exact hinv .po

/-! ## C1: capped scores and the total -/

/-- C1: for every gene of the base set (arbitrary per-gene layer inputs),
under a well-formed configuration (non-negative weights, caps, multipliers
and bonuses; raise-free rule conditions), the pipeline produces a score
vector in which, for each of the six layers, the capped score equals
`min(raw, cap)` and is non-negative, and the total equals exactly the sum of
the six capped scores. -/
theorem score_vector_invariant (cfg : Config)
    (annots : List (String × String × String))
    (poTab : List (String × List String × List String)) (inp : GeneInputs)
    (hcfg : NonnegConfig cfg) (hwf : condsWF cfg.rules = true) :
    ∃ st, runGene cfg annots poTab inp = some st ∧
      (∀ L, cappedOf st.capped L = min (rawOf st.raw L) (capOf cfg L) ∧
        0 ≤ cappedOf st.capped L) ∧
      st.capped.total = st.capped.go + st.capped.domain + st.capped.orthology +
        st.capped.tair + st.capped.po + st.capped.synergy := by
  have h0 := init_inv cfg hcfg
  have h1 := goPass_inv cfg inp.goRows initState hcfg h0
  have h2 := domainPass_inv cfg inp.domainScan _ hcfg h1
  have h3 := orthoPass_inv cfg annots inp.ortho _ hcfg h2
  have h4 := tairPass_inv cfg inp.tairEnabled annots _ hcfg h3
  have h5 := poPass_inv cfg inp.poEnabled poTab _ hcfg h4
  obtain ⟨st6, hs6, hinv6⟩ := synergyPass_some cfg _ hcfg hwf h5
  refine ⟨totalPass st6, ?_, ?_, rfl⟩
  · simp only [runGene]
    rw [hs6]
    rfl
  · intro L
    have hL := hinv6 L
    have hmin : 0 ≤ min (rawOf st6.raw L) (capOf cfg L) :=
      le_min hL.2 (capOf_nonneg cfg hcfg L)
    cases L <;> exact ⟨hL.1, hL.1.symm ▸ hmin⟩

/-- C1 witness: the invariant at the sample configuration on a gene carrying
one weighted GO annotation row and no optional-layer evidence. -/
theorem score_vector_invariant_witness :
    NonnegConfig sampleCfg ∧ condsWF sampleCfg.rules = true ∧
      ∃ st, runGene sampleCfg [] [] ⟨["GO:0012501"], none, none, false, false⟩ =
          some st ∧
        (∀ L, cappedOf st.capped L = min (rawOf st.raw L) (capOf sampleCfg L) ∧
          0 ≤ cappedOf st.capped L) ∧
        st.capped.total = st.capped.go + st.capped.domain + st.capped.orthology +
          st.capped.tair + st.capped.po + st.capped.synergy :=
  ⟨by unfold NonnegConfig; with_unfolding_all decide, by with_unfolding_all rfl,
    score_vector_invariant sampleCfg [] [] ⟨["GO:0012501"], none, none, false, false⟩
      (by unfold NonnegConfig; with_unfolding_all decide) (by with_unfolding_all rfl)⟩

end PGSB
